import Mathlib

/-!
# Verification of `kitty/borders.py`

A shallow embedding of the border-rectangle layout and render logic of
`src/kitty/borders.py`, together with theorems settling the specification's
claims about it.

Modelling conventions:
* Python numbers (ints and the floats produced by `/`) are modelled as exact
  rationals `ℚ`; all arithmetic in the source is pure arithmetic on such
  values.
* The module-level globals `viewport_size.width` / `viewport_size.height` are
  passed explicitly as parameters `vw` / `vh` to each function that reads
  them.
* `available_height()` (imported from `kitty.layout`, not part of this file's
  source) is modelled from the spec: the spec treats the drawable height as
  the viewport height, so the same `vh` parameter is used for it.
* Python object identity (`w is active_window`) is modelled by giving every
  window a numeric identity `id` and representing `active_window` as an
  `Option ℕ` (`none` = no active window).
* The ctypes arrays `rects`, `starts`, `counts` are modelled as Lean lists;
  the GPU calls made by `render` are modelled as an emitted event list.
-/

namespace KittyBorders

/-- Window geometry in device pixels, as read from `w.geometry` in the
source (`left`, `top`, `right`, `bottom`). -/
structure WindowGeometry where
  left : ℚ
  top : ℚ
  right : ℚ
  bottom : ℚ

/-- A window: an identity (standing for Python object identity) plus its
geometry. -/
structure Window where
  id : ℕ
  geometry : WindowGeometry

/-- `to_opengl(x, y)` from the source: maps device-pixel coordinates to
clip-space coordinates, reading the viewport size (here passed as `vw`,
`vh`). -/
def to_opengl (vw vh x y : ℚ) : ℚ × ℚ :=
  (-1 + 2 * x / vw, 1 - 2 * y / vh)

/-- `as_rect(left, top, right, bottom, color=0)` from the source: for each
corner `(right,top), (right,bottom), (left,bottom), (left,top)` yield the
clip-space `x`, the clip-space `y`, and the color index. -/
def as_rect (vw vh : ℚ) (left top right bottom : ℚ) (color : ℚ := 0) : List ℚ :=
  [(right, top), (right, bottom), (left, bottom), (left, top)].flatMap fun p =>
    [(to_opengl vw vh p.1 p.2).1, (to_opengl vw vh p.1 p.2).2, color]

/-- The bounding-box computation at the top of `Borders.__call__`:
`(left_edge, top_edge, right_edge, bottom_edge)`, which is the min/max of
the window geometries when `windows` is nonempty and
`(0, 0, vw, vh)` otherwise. -/
def bounding (windows : List Window) (vw vh : ℚ) : ℚ × ℚ × ℚ × ℚ :=
  match windows with
  | [] => (0, 0, vw, vh)
  | w :: ws =>
      (ws.foldl (fun a x => min a x.geometry.left) w.geometry.left,
       ws.foldl (fun a x => min a x.geometry.top) w.geometry.top,
       ws.foldl (fun a x => max a x.geometry.right) w.geometry.right,
       ws.foldl (fun a x => max a x.geometry.bottom) w.geometry.bottom)

/-- The four border-ring rectangles one window contributes inside the
`draw_window_borders` loop of `Borders.__call__`, in source order:
left strip, top strip, right strip, bottom strip, each colored `1` when the
window is the active window and `2` otherwise. -/
def window_ring (vw vh bw : ℚ) (active : Option ℕ) (w : Window) : List ℚ :=
  let g := w.geometry
  let color : ℚ := if active = some w.id then 1 else 2
  as_rect vw vh (g.left - bw) (g.top - bw) g.left (g.bottom + bw) color ++
  as_rect vw vh (g.left - bw) (g.top - bw) (g.right + bw) g.top color ++
  as_rect vw vh g.right (g.top - bw) (g.right + bw) (g.bottom + bw) color ++
  as_rect vw vh (g.left - bw) g.bottom (g.right + bw) (g.bottom + bw) color

/-- The `rects` list built by `Borders.__call__` before packing: the four
conditional padding rectangles in source order, then, when
`draw_window_borders and self.border_width > 0`, each window's border ring
appended in input order. -/
def borders_call_rects (vw vh bw : ℚ) (windows : List Window) (active : Option ℕ)
    (draw_window_borders : Bool) : List ℚ :=
  let e := bounding windows vw vh
  let left_edge := e.1
  let top_edge := e.2.1
  let right_edge := e.2.2.1
  let bottom_edge := e.2.2.2
  let rects : List ℚ := []
  let rects := rects ++ (if left_edge > 0 then as_rect vw vh 0 0 left_edge vh else [])
  let rects := rects ++ (if top_edge > 0 then as_rect vw vh 0 0 vw top_edge else [])
  let rects := rects ++ (if right_edge < vw then as_rect vw vh right_edge 0 vw vh else [])
  let rects := rects ++ (if bottom_edge < vh then as_rect vw vh 0 bottom_edge vw vh else [])
  if draw_window_borders ∧ bw > 0 then
    windows.foldl (fun acc w => acc ++ window_ring vw vh bw active w) rects
  else rects

/-- The packed frame stored by `Borders.__call__` under its lock:
`num_of_rects = len(rects) // 12`, and the loop
`for i, x in enumerate(rects): if i % 12 == 0: starts[i // 12] = i // 3;
counts[i // 12] = 4`. -/
structure PackedFrame where
  rects : List ℚ
  starts : List ℤ
  counts : List ℕ
  num_of_rects : ℕ

/-- The packing loop of `Borders.__call__`: `starts` receives `i // 3` and
`counts` receives `4`, once for each index `i` of `rects` with
`i % 12 == 0`. -/
def pack_frame (rects : List ℚ) : PackedFrame where
  rects := rects
  starts := ((List.range rects.length).filter (fun i => i % 12 == 0)).map
    (fun i => ((i / 3 : ℕ) : ℤ))
  counts := ((List.range rects.length).filter (fun i => i % 12 == 0)).map (fun _ => 4)
  num_of_rects := rects.length / 12

/-- The full layout computation `Borders.__call__`: build the rectangle
list, then pack it. -/
def borders_frame (vw vh bw : ℚ) (windows : List Window) (active : Option ℕ)
    (draw_window_borders : Bool) : PackedFrame :=
  pack_frame (borders_call_rects vw vh bw windows active draw_window_borders)

/-! ## Spec-side decompositions

These definitions restate pieces of the computation the way the spec
describes them (padding rectangles, border rings, ring strips); the theorems
relate them to the monolithic `borders_call_rects` above. -/

/-- The padding rectangles of the spec: up to four background strips, in the
fixed four-test order. -/
def padding_rects (vw vh : ℚ) (windows : List Window) : List ℚ :=
  let e := bounding windows vw vh
  (if e.1 > 0 then as_rect vw vh 0 0 e.1 vh else []) ++
  (if e.2.1 > 0 then as_rect vw vh 0 0 vw e.2.1 else []) ++
  (if e.2.2.1 < vw then as_rect vw vh e.2.2.1 0 vw vh else []) ++
  (if e.2.2.2 < vh then as_rect vw vh 0 e.2.2.2 vw vh else [])

/-- The border-ring rectangles of the spec: one ring per window in input
order, emitted exactly when `draw_window_borders` is set and the border
width is positive. -/
def ring_rects (vw vh bw : ℚ) (active : Option ℕ) (draw_window_borders : Bool)
    (windows : List Window) : List ℚ :=
  if draw_window_borders ∧ bw > 0 then windows.flatMap (window_ring vw vh bw active)
  else []

/-- The four strips of a window's border ring, as plain device-pixel
rectangles (before clip-space mapping), in emission order. -/
def ring_strips (bw : ℚ) (g : WindowGeometry) : List WindowGeometry :=
  [⟨g.left - bw, g.top - bw, g.left, g.bottom + bw⟩,
   ⟨g.left - bw, g.top - bw, g.right + bw, g.top⟩,
   ⟨g.right, g.top - bw, g.right + bw, g.bottom + bw⟩,
   ⟨g.left - bw, g.bottom, g.right + bw, g.bottom + bw⟩]

/-- Closed membership of a point in a device-pixel rectangle. -/
def WindowGeometry.mem_closed (g : WindowGeometry) (x y : ℚ) : Prop :=
  g.left ≤ x ∧ x ≤ g.right ∧ g.top ≤ y ∧ y ≤ g.bottom

/-- Membership of a point in the open interior of a device-pixel
rectangle. -/
def WindowGeometry.mem_interior (g : WindowGeometry) (x y : ℚ) : Prop :=
  g.left < x ∧ x < g.right ∧ g.top < y ∧ y < g.bottom

/-! ## Render state -/

/-- `as_color(c)` from the source: normalize an RGB triple from `[0, 255]`
to `[0, 1]`. -/
def as_color (c : ℕ × ℕ × ℕ) : List ℚ :=
  [(c.1 : ℚ) / 255, (c.2.1 : ℚ) / 255, (c.2.2 : ℚ) / 255]

/-- The 9-scalar color buffer built in `Borders.__init__`: background,
active border color, inactive border color. -/
def mk_color_buf (background active_border inactive_border : ℕ × ℕ × ℕ) : List ℚ :=
  as_color background ++ as_color active_border ++ as_color inactive_border

/-- The mutable state of a `Borders` instance that `render` reads: the
`can_render` and `is_dirty` flags, the packed frame, and the color
buffer. -/
structure RenderState where
  can_render : Bool
  is_dirty : Bool
  frame : PackedFrame
  color_buf : List ℚ

/-- The externally visible GPU calls `render` can make: `upload` stands for
`program.send_data(rects)` + `program.set_colors(color_buf)`, and `draw`
for `glMultiDrawArrays(starts, counts, num_of_rects)`. -/
inductive RenderEvent where
  | upload (vertexData : List ℚ) (colorPalette : List ℚ)
  | draw (starts : List ℤ) (counts : List ℕ) (num_of_rects : ℕ)

/-- `Borders.render` from the source: return immediately when
`can_render` is unset; otherwise upload and clear the dirty flag when
dirty, then always issue the batched draw. Returns the new state and the
emitted GPU calls in order. -/
def borders_render (s : RenderState) : RenderState × List RenderEvent :=
  if s.can_render = false then (s, [])
  else if s.is_dirty then
    ({ s with is_dirty := false },
     [RenderEvent.upload s.frame.rects s.color_buf,
      RenderEvent.draw s.frame.starts s.frame.counts s.frame.num_of_rects])
  else
    (s, [RenderEvent.draw s.frame.starts s.frame.counts s.frame.num_of_rects])

/-- The state mutation performed by `Borders.__call__` under its lock:
store the freshly packed frame and set both flags. -/
def borders_update (vw vh bw : ℚ) (windows : List Window) (active : Option ℕ)
    (draw_window_borders : Bool) (s : RenderState) : RenderState :=
  { s with
    frame := borders_frame vw vh bw windows active draw_window_borders
    is_dirty := true
    can_render := true }

/-! ## Claims -/

/-- C2: the coordinate mapping returns `(-1 + 2x/width, 1 - 2y/height)` for
every input; for positive viewport dimensions it maps `(0,0)` to `(-1,1)`
and `(width,height)` to `(1,-1)`; it is a pure total function. -/
theorem c2_to_opengl_clip_space (vw vh x y : ℚ) (hw : 0 < vw) (hh : 0 < vh) :
    to_opengl vw vh x y = (-1 + 2 * x / vw, 1 - 2 * y / vh) ∧
    to_opengl vw vh 0 0 = (-1, 1) ∧
    to_opengl vw vh vw vh = (1, -1) := by
  refine ⟨rfl, ?_, ?_⟩
  · simp [to_opengl]
  · have hw0 : vw ≠ 0 := ne_of_gt hw
    have hh0 : vh ≠ 0 := ne_of_gt hh
    simp only [to_opengl, Prod.mk.injEq]
    constructor
    · field_simp
      ring
    · field_simp
      ring

/-- Witness for C2 at viewport 800×600. -/
theorem c2_to_opengl_clip_space_witness :
    (0 : ℚ) < 800 ∧ (0 : ℚ) < 600 ∧
    to_opengl 800 600 0 0 = (-1, 1) ∧ to_opengl 800 600 800 600 = (1, -1) :=
  ⟨by norm_num, by norm_num,
   (c2_to_opengl_clip_space 800 600 0 0 (by norm_num) (by norm_num)).2.1,
   (c2_to_opengl_clip_space 800 600 800 600 (by norm_num) (by norm_num)).2.2⟩

/-- C3: the rectangle emitter always produces exactly 4 vertices
(12 scalars), visiting corners in the fixed order `(right,top)`,
`(right,bottom)`, `(left,bottom)`, `(left,top)`, each corner mapped to clip
space and tagged with the given color index. -/
theorem c3_as_rect_vertices (vw vh l t r b c : ℚ) :
    as_rect vw vh l t r b c =
      [(to_opengl vw vh r t).1, (to_opengl vw vh r t).2, c,
       (to_opengl vw vh r b).1, (to_opengl vw vh r b).2, c,
       (to_opengl vw vh l b).1, (to_opengl vw vh l b).2, c,
       (to_opengl vw vh l t).1, (to_opengl vw vh l t).2, c] ∧
    (as_rect vw vh l t r b c).length = 12 :=
  ⟨rfl, rfl⟩

/-! ## Helper lemmas -/

theorem length_as_rect (vw vh l t r b c : ℚ) : (as_rect vw vh l t r b c).length = 12 := rfl

theorem length_window_ring (vw vh bw : ℚ) (active : Option ℕ) (w : Window) :
    (window_ring vw vh bw active w).length = 48 := by
  simp [window_ring, length_as_rect]

theorem foldl_append_eq_flatMap {α β : Type} (f : α → List β) (l : List α) (init : List β) :
    l.foldl (fun acc w => acc ++ f w) init = init ++ l.flatMap f := by
  induction l generalizing init with
  | nil => simp
  | cons w ws ih => simp [ih, List.append_assoc]

theorem borders_call_rects_decomp (vw vh bw : ℚ) (windows : List Window) (active : Option ℕ)
    (dwb : Bool) :
    borders_call_rects vw vh bw windows active dwb =
      padding_rects vw vh windows ++ ring_rects vw vh bw active dwb windows := by
  unfold borders_call_rects padding_rects ring_rects
  by_cases h : (dwb : Prop) ∧ bw > 0
  · simp only [if_pos h, foldl_append_eq_flatMap, List.nil_append, List.append_assoc]
  · simp only [if_neg h, List.nil_append, List.append_nil, List.append_assoc]

theorem length_padding_rects_mod (vw vh : ℚ) (windows : List Window) :
    (padding_rects vw vh windows).length % 12 = 0 := by
  unfold padding_rects
  simp only [List.length_append, apply_ite List.length, length_as_rect, List.length_nil]
  split_ifs <;> rfl

theorem length_ring_rects_mod (vw vh bw : ℚ) (active : Option ℕ) (dwb : Bool)
    (windows : List Window) :
    (ring_rects vw vh bw active dwb windows).length % 12 = 0 := by
  unfold ring_rects
  split
  · induction windows with
    | nil => rfl
    | cons w ws ih =>
        simp only [List.flatMap_cons, List.length_append, length_window_ring]
        omega
  · rfl

theorem length_borders_call_rects_mod (vw vh bw : ℚ) (windows : List Window)
    (active : Option ℕ) (dwb : Bool) :
    (borders_call_rects vw vh bw windows active dwb).length % 12 = 0 := by
  rw [borders_call_rects_decomp, List.length_append]
  have hp := length_padding_rects_mod vw vh windows
  have hr := length_ring_rects_mod vw vh bw active dwb windows
  omega

theorem filter_range_mod12 (n : ℕ) :
    (List.range (12 * n)).filter (fun i => i % 12 == 0) =
      (List.range n).map (fun k => 12 * k) := by
  induction n with
  | zero => rfl
  | succ n ih =>
      have h12 : 12 * (n + 1) = 12 * n + 12 := by ring
      rw [h12, List.range_add, List.filter_append, ih]
      conv_rhs => rw [List.range_succ]
      rw [List.map_append]
      congr 1
      rw [List.filter_map]
      have hpred : ((fun i => i % 12 == 0) ∘ (fun x => 12 * n + x)) =
          (fun j => j % 12 == 0) := by
        funext j
        simp [Function.comp, Nat.mul_add_mod]
      rw [hpred]
      rfl

/-! ## Claims about the empty window list and the packed frame -/

/-- C1 counterexample: at viewport 800×600 with the empty window list,
`drawBorders = true` and `borderWidthPx = 2`, the layout computation
produces the empty rectangle list — zero rectangle units, not one
full-viewport background rectangle. -/
theorem c1_empty_windows_counterexample :
    borders_call_rects 800 600 2 [] none true = [] ∧
    (borders_frame 800 600 2 [] none true).num_of_rects = 0 ∧
    (borders_frame 800 600 2 [] none true).num_of_rects ≠ 1 := by
  have h : borders_call_rects 800 600 2 [] none true = [] := by
    norm_num [borders_call_rects, bounding]
  refine ⟨h, ?_, ?_⟩ <;> simp [borders_frame, pack_frame, h]

/-- C1 (amended): for the empty window list the bounding box defaults to
the full viewport, so the layout computation emits no rectangles at all —
the packed frame is empty (0 scalars, 0 rectangle units), for every
viewport, `drawBorders` flag and border width. -/
theorem c1_empty_windows_amended (vw vh bw : ℚ) (active : Option ℕ) (dwb : Bool) :
    borders_call_rects vw vh bw [] active dwb = [] ∧
    (borders_frame vw vh bw [] active dwb).rects = [] ∧
    (borders_frame vw vh bw [] active dwb).num_of_rects = 0 := by
  have h : borders_call_rects vw vh bw [] active dwb = [] := by
    simp [borders_call_rects, bounding]
  refine ⟨h, ?_, ?_⟩ <;> simp [borders_frame, pack_frame, h]

/-- C6: the vertex stream of every packed frame is exactly the padding
rectangles in the fixed four-test order (left strip if `leftEdge > 0`, then
top strip if `topEdge > 0`, then right strip if `rightEdge < vw`, then
bottom strip if `bottomEdge < vh`, each colored Background = 0), followed
by the border rings of the windows in input order. -/
theorem c6_emission_order (vw vh bw : ℚ) (windows : List Window) (active : Option ℕ)
    (dwb : Bool) :
    (borders_frame vw vh bw windows active dwb).rects =
      ((if (bounding windows vw vh).1 > 0 then
          as_rect vw vh 0 0 (bounding windows vw vh).1 vh 0 else []) ++
       (if (bounding windows vw vh).2.1 > 0 then
          as_rect vw vh 0 0 vw (bounding windows vw vh).2.1 0 else []) ++
       (if (bounding windows vw vh).2.2.1 < vw then
          as_rect vw vh (bounding windows vw vh).2.2.1 0 vw vh 0 else []) ++
       (if (bounding windows vw vh).2.2.2 < vh then
          as_rect vw vh 0 (bounding windows vw vh).2.2.2 vw vh 0 else [])) ++
      ring_rects vw vh bw active dwb windows := by
  show borders_call_rects vw vh bw windows active dwb = _
  rw [borders_call_rects_decomp]
  rfl

theorem length_filter_range_mod12 (len : ℕ) (h : len % 12 = 0) :
    ((List.range len).filter (fun i => i % 12 == 0)).length = len / 12 := by
  obtain ⟨n, rfl⟩ : ∃ n, len = 12 * n := ⟨len / 12, by omega⟩
  rw [filter_range_mod12, List.length_map, List.length_range]
  omega

theorem pack_starts_getElem (len : ℕ) (h : len % 12 = 0) (k : ℕ) (hk : k < len / 12) :
    (((List.range len).filter (fun i => i % 12 == 0)).map (fun i => ((i / 3 : ℕ) : ℤ)))[k]? =
      some ((4 * k : ℕ) : ℤ) := by
  obtain ⟨n, rfl⟩ : ∃ n, len = 12 * n := ⟨len / 12, by omega⟩
  have hk' : k < n := by omega
  rw [filter_range_mod12, List.map_map, List.getElem?_map, List.getElem?_range hk']
  simp [Function.comp]
  omega

/-- C4: for every input, the packed frame satisfies the stream invariants:
the scalar count is a multiple of 12, `num_of_rects` equals the scalar
count divided by 12, there is one draw-call descriptor per rectangle, and
every descriptor's vertex count is exactly 4. -/
theorem c4_packed_frame_invariants (vw vh bw : ℚ) (windows : List Window)
    (active : Option ℕ) (dwb : Bool) :
    (borders_frame vw vh bw windows active dwb).rects.length % 12 = 0 ∧
    (borders_frame vw vh bw windows active dwb).num_of_rects =
      (borders_frame vw vh bw windows active dwb).rects.length / 12 ∧
    (borders_frame vw vh bw windows active dwb).counts.length =
      (borders_frame vw vh bw windows active dwb).num_of_rects ∧
    ∀ c ∈ (borders_frame vw vh bw windows active dwb).counts, c = 4 := by
  have hmod := length_borders_call_rects_mod vw vh bw windows active dwb
  refine ⟨hmod, rfl, ?_, ?_⟩
  · show (((List.range _).filter _).map _).length = _
    rw [List.length_map, length_filter_range_mod12 _ hmod]
    rfl
  · intro c hc
    simp only [borders_frame, pack_frame, List.mem_map] at hc
    obtain ⟨i, _, rfl⟩ := hc
    rfl

/-- C10: in every packed frame the k-th draw-call descriptor's start vertex
offset is `4·k`, there is one descriptor per rectangle, the vertex counts
are all 4, and the scalar stream has exactly `12 · num_of_rects` entries —
so the per-rectangle vertex ranges are consecutive 4-vertex blocks covering
the stream in order with no gaps. -/
theorem c10_start_offsets (vw vh bw : ℚ) (windows : List Window) (active : Option ℕ)
    (dwb : Bool) :
    (borders_frame vw vh bw windows active dwb).starts.length =
      (borders_frame vw vh bw windows active dwb).num_of_rects ∧
    (borders_frame vw vh bw windows active dwb).rects.length =
      12 * (borders_frame vw vh bw windows active dwb).num_of_rects ∧
    ∀ k, k < (borders_frame vw vh bw windows active dwb).num_of_rects →
      (borders_frame vw vh bw windows active dwb).starts[k]? = some ((4 * k : ℕ) : ℤ) := by
  have hmod := length_borders_call_rects_mod vw vh bw windows active dwb
  refine ⟨?_, ?_, ?_⟩
  · show (((List.range _).filter _).map _).length = _
    rw [List.length_map, length_filter_range_mod12 _ hmod]
    rfl
  · show (borders_call_rects vw vh bw windows active dwb).length =
      12 * ((borders_call_rects vw vh bw windows active dwb).length / 12)
    omega
  · intro k hk
    exact pack_starts_getElem _ hmod k hk

/-- The concrete rectangle list for one window at (10, 10, 100, 100) in an
800×600 viewport with border width 2 has 96 scalars (4 padding + 4 ring
rectangles). -/
theorem concrete_call_length :
    (borders_call_rects 800 600 2 [⟨0, ⟨10, 10, 100, 100⟩⟩] none true).length = 96 := by
  rw [borders_call_rects_decomp]
  norm_num [padding_rects, ring_rects, bounding, length_as_rect, length_window_ring]

/-- Witness for C10: one window with geometry (10, 10, 100, 100) in an
800×600 viewport with border width 2 yields a nonempty frame whose first
start offset is 0. -/
theorem c10_start_offsets_witness :
    0 < (borders_frame 800 600 2 [⟨0, ⟨10, 10, 100, 100⟩⟩] none true).num_of_rects ∧
    (borders_frame 800 600 2 [⟨0, ⟨10, 10, 100, 100⟩⟩] none true).starts[0]? =
      some ((4 * 0 : ℕ) : ℤ) := by
  have hlen := concrete_call_length
  have hn : (borders_frame 800 600 2 [⟨0, ⟨10, 10, 100, 100⟩⟩] none true).num_of_rects = 8 := by
    show (borders_call_rects 800 600 2 [⟨0, ⟨10, 10, 100, 100⟩⟩] none true).length / 12 = 8
    omega
  refine ⟨by omega, ?_⟩
  exact (c10_start_offsets 800 600 2 [⟨0, ⟨10, 10, 100, 100⟩⟩] none true).2.2 0 (by omega)

/-- Witness for C4: the same concrete frame has a descriptor with vertex
count 4, and the theorem applies to it. -/
theorem c4_packed_frame_invariants_witness :
    (4 : ℕ) ∈ (borders_frame 800 600 2 [⟨0, ⟨10, 10, 100, 100⟩⟩] none true).counts ∧
    (4 : ℕ) = 4 := by
  have hmem : (4 : ℕ) ∈ (borders_frame 800 600 2 [⟨0, ⟨10, 10, 100, 100⟩⟩] none true).counts := by
    show (4 : ℕ) ∈
      ((List.range (borders_call_rects 800 600 2 [⟨0, ⟨10, 10, 100, 100⟩⟩] none true).length).filter
        (fun i => i % 12 == 0)).map (fun _ => 4)
    rw [concrete_call_length]
    decide
  exact ⟨hmem,
    (c4_packed_frame_invariants 800 600 2 [⟨0, ⟨10, 10, 100, 100⟩⟩] none true).2.2.2 4 hmem⟩

/-- C5: border rings are emitted exactly when `drawBorders` is true and the
border width is positive (`drawBorders = false` yields none for any width;
width 0 yields none for any flag); when emitted, every window contributes
the four strip rectangles (left, top, right, bottom) with the stated
corners, colored ActiveBorder (1) when it is the active window and
InactiveBorder (2) otherwise, and no strip meets the interior of the
window's own geometry. -/
theorem c5_border_rings (vw vh bw : ℚ) (windows : List Window) (active : Option ℕ)
    (dwb : Bool) :
    ring_rects vw vh bw active false windows = [] ∧
    ring_rects vw vh 0 active dwb windows = [] ∧
    (dwb = true → 0 < bw →
      ring_rects vw vh bw active dwb windows =
        windows.flatMap (window_ring vw vh bw active)) ∧
    (∀ w : Window,
      window_ring vw vh bw active w =
        (ring_strips bw w.geometry).flatMap (fun s =>
          as_rect vw vh s.left s.top s.right s.bottom
            (if active = some w.id then 1 else 2))) ∧
    (∀ w : Window, ∀ s ∈ ring_strips bw w.geometry, ∀ x y : ℚ,
      s.mem_closed x y → ¬ w.geometry.mem_interior x y) := by
  refine ⟨rfl, ?_, ?_, ?_, ?_⟩
  · simp [ring_rects]
  · intro hd hb
    simp [ring_rects, hd, hb]
  · intro w
    simp [window_ring, ring_strips]
  · intro w s hs x y hc
    intro hi
    obtain ⟨hi1, hi2, hi3, hi4⟩ := hi
    simp only [ring_strips, List.mem_cons, List.not_mem_nil, or_false] at hs
    rcases hs with rfl | rfl | rfl | rfl <;>
      · obtain ⟨hc1, hc2, hc3, hc4⟩ := hc
        simp only at hc1 hc2 hc3 hc4
        linarith

/-- Witness for C5: with one active window at (10, 10, 100, 100), border
width 2 and `drawBorders = true`, the ring rectangles are exactly the
per-window rings, and the point (9, 50) of the left strip is not interior
to the window. -/
theorem c5_border_rings_witness :
    ring_rects 800 600 2 (some 7) true [⟨7, ⟨10, 10, 100, 100⟩⟩] =
      List.flatMap [⟨7, ⟨10, 10, 100, 100⟩⟩] (window_ring 800 600 2 (some 7)) ∧
    ¬ WindowGeometry.mem_interior ⟨10, 10, 100, 100⟩ 9 50 := by
  constructor
  · exact (c5_border_rings 800 600 2 [⟨7, ⟨10, 10, 100, 100⟩⟩] (some 7) true).2.2.1
      rfl (by norm_num)
  · exact (c5_border_rings 800 600 2 [⟨7, ⟨10, 10, 100, 100⟩⟩] (some 7) true).2.2.2.2
      ⟨7, ⟨10, 10, 100, 100⟩⟩ ⟨8, 8, 10, 102⟩ (by norm_num [ring_strips]) 9 50
      (by refine ⟨?_, ?_, ?_, ?_⟩ <;> norm_num)

/-- C7: `render` is a no-op when `can_render` is unset; when it is set, the
upload happens exactly when the frame is dirty (and clears the dirty flag),
and the batched draw is always issued afterwards from the stored frame. -/
theorem c7_render_gating (s : RenderState) :
    (s.can_render = false → borders_render s = (s, [])) ∧
    (s.can_render = true → s.is_dirty = true →
      borders_render s =
        ({ s with is_dirty := false },
         [RenderEvent.upload s.frame.rects s.color_buf,
          RenderEvent.draw s.frame.starts s.frame.counts s.frame.num_of_rects])) ∧
    (s.can_render = true → s.is_dirty = false →
      borders_render s =
        (s, [RenderEvent.draw s.frame.starts s.frame.counts s.frame.num_of_rects])) := by
  refine ⟨?_, ?_, ?_⟩
  · intro h
    simp [borders_render, h]
  · intro h hd
    simp [borders_render, h, hd]
  · intro h hd
    simp [borders_render, h, hd]

/-- Witness for C7: on a never-updated state (`can_render = false`),
`render` changes nothing and emits no GPU calls. -/
theorem c7_render_gating_witness :
    borders_render ⟨false, true, pack_frame [], []⟩ =
      (⟨false, true, pack_frame [], []⟩, []) :=
  (c7_render_gating ⟨false, true, pack_frame [], []⟩).1 rfl

/-- C8: the layout computation is deterministic — two calls with identical
inputs produce identical packed frames. -/
theorem c8_deterministic (vw₁ vh₁ bw₁ vw₂ vh₂ bw₂ : ℚ) (ws₁ ws₂ : List Window)
    (a₁ a₂ : Option ℕ) (d₁ d₂ : Bool) (hvw : vw₁ = vw₂) (hvh : vh₁ = vh₂)
    (hbw : bw₁ = bw₂) (hws : ws₁ = ws₂) (ha : a₁ = a₂) (hd : d₁ = d₂) :
    borders_frame vw₁ vh₁ bw₁ ws₁ a₁ d₁ = borders_frame vw₂ vh₂ bw₂ ws₂ a₂ d₂ := by
  subst hvw hvh hbw hws ha hd
  rfl

/-- Witness for C8 at a concrete input. -/
theorem c8_deterministic_witness :
    borders_frame 800 600 2 [⟨0, ⟨10, 10, 100, 100⟩⟩] none true =
      borders_frame 800 600 2 [⟨0, ⟨10, 10, 100, 100⟩⟩] none true :=
  c8_deterministic 800 600 2 800 600 2 [⟨0, ⟨10, 10, 100, 100⟩⟩]
    [⟨0, ⟨10, 10, 100, 100⟩⟩] none none true true rfl rfl rfl rfl rfl rfl

end KittyBorders
